import Mathlib

/-!
Formal model of the stochastic cost estimator in src/server.js and src/unnamed/part_000.

Monetary quantities are modelled as rationals (ℚ); the JavaScript numeric literals
0.1, 0.15, 0.2 and 0.5 are modelled as the exact rationals they denote.

The only source of randomness is Math.random(), consumed exclusively by the local
function randn_bm.  Each call randn_bm(mean, std) returns z * std + mean, where
z = sqrt(-2 ln u) * cos(2 pi v) is the standard normal deviate built from the two
uniform draws u, v (see randn_bm below, modelled over ℝ).  The simulation pipeline
is therefore parameterised by the stream z : ℕ → ℚ of standard normal deviates, one
per randn_bm call in call order: trial i consumes z (3i), z (3i+1), z (3i+2) for the
rent, food and transport draws respectively.
-/

/-- The set of values JavaScript Number(x) can produce: NaN, the two infinities, or a
finite number (finite doubles are modelled as rationals; -0 is identified with 0,
which is sound here because both are falsy and the two behave identically under
the only operation applied to them, the || coercion). -/
inductive JSNumber where
  | nan : JSNumber
  | posInf : JSNumber
  | negInf : JSNumber
  | finite : ℚ → JSNumber
  deriving DecidableEq

/-- JavaScript truthiness of a number: NaN, 0 and -0 are falsy, everything else truthy. -/
def JSNumber.truthy : JSNumber → Bool
  | .nan => false
  | .posInf => true
  | .negInf => true
  | .finite q => decide (q ≠ 0)

/-- JavaScript x || d for numbers x and d: d when x is falsy, x otherwise. -/
def jsOr (x d : JSNumber) : JSNumber := if x.truthy then x else d

/-- The request body as seen by the handler in src/server.js lines 59-64: each field
holds the value of Number(...) applied to the corresponding raw body field
(body.tuition, body.months, body.monthly?.rent, body.monthly?.food,
body.monthly?.transport, body.scholarship).  A missing field or a non-numeric
value coerces to NaN. -/
structure RequestBody where
  tuition : JSNumber
  months : JSNumber
  rent : JSNumber
  food : JSNumber
  transport : JSNumber
  scholarship : JSNumber

/-- The numeric values actually passed on to the estimator. -/
structure CoercedInputs where
  tuition : JSNumber
  months : JSNumber
  rent : JSNumber
  food : JSNumber
  transport : JSNumber
  scholarship : JSNumber

/-- src/server.js lines 59-64 (identically src/unnamed/part_000 lines 68-73):
tuition = Number(body.tuition) || 0, months = Number(body.months) || 12,
rent = Number(body.monthly?.rent) || 0, and so on. -/
def coerceInputs (b : RequestBody) : CoercedInputs where
  tuition := jsOr b.tuition (.finite 0)
  months := jsOr b.months (.finite 12)
  rent := jsOr b.rent (.finite 0)
  food := jsOr b.food (.finite 0)
  transport := jsOr b.transport (.finite 0)
  scholarship := jsOr b.scholarship (.finite 0)

/-- A numeric field is a non-negative finite number (the property the spec demands of
every coerced field). -/
def nonnegFinite : JSNumber → Prop
  | .finite q => 0 ≤ q
  | _ => False

/-- The input record of sampleTotalsFromInputs (src/server.js line 21). -/
structure EstimateInput where
  tuition : ℚ
  months : ℚ
  rent : ℚ
  food : ℚ
  transport : ℚ
  scholarship : ℚ

/-- The record returned by sampleTotalsFromInputs (src/server.js lines 49-53). -/
structure DistributionSummary where
  p10 : ℤ
  median : ℤ
  p90 : ℤ
  deriving DecidableEq

/-- Box-Muller core formula (src/server.js line 26):
Math.sqrt(-2.0 * Math.log(u)) * Math.cos(2 * Math.PI * v) * std + mean. -/
noncomputable def randn_bm_core (mean std u v : ℝ) : ℝ :=
  Real.sqrt (-2 * Real.log u) * Real.cos (2 * Real.pi * v) * std + mean

open Classical in
/-- The re-draw loop of randn_bm (src/server.js lines 23-25): while (u === 0) u = Math.random().
The uniform source Math.random() is modelled as a stream s of draws; the loop walks the
stream from position i until it meets a nonzero draw, returning that draw and the next
unread position.  Fuel bounds the number of iterations modelled (the JavaScript loop has
no bound; none is returned when every inspected draw was zero). -/
noncomputable def drawNonzero (s : ℕ → ℝ) : ℕ → ℕ → Option (ℝ × ℕ)
  | 0, _ => none
  | fuel + 1, i => if s i = 0 then drawNonzero s fuel (i + 1) else some (s i, i + 1)

/-- randn_bm (src/server.js lines 22-27): draw u, then v, each re-drawn until nonzero,
then apply the Box-Muller formula.  Returns the sample together with the next unread
stream position. -/
noncomputable def randn_bm (s : ℕ → ℝ) (fuel : ℕ) (mean std : ℝ) (i : ℕ) :
    Option (ℝ × ℕ) :=
  match drawNonzero s fuel i with
  | none => none
  | some (u, j) =>
    match drawNonzero s fuel j with
    | none => none
    | some (v, k) => some (randn_bm_core mean std u v, k)

/-- The value of one randn_bm(mean, std) call expressed through its standard normal
deviate z: randn_bm returns sqrt(-2 ln u) * cos(2 pi v) * std + mean = z * std + mean. -/
def randn_bm_draw (mean std z : ℚ) : ℚ := z * std + mean

/-- Rent standard deviation (src/server.js line 29): Math.max(0.1 * rent, 50). -/
def rentStd (rent : ℚ) : ℚ := max (0.1 * rent) 50

/-- Food standard deviation (src/server.js line 30): Math.max(0.15 * food, 20). -/
def foodStd (food : ℚ) : ℚ := max (0.15 * food) 20

/-- Transport standard deviation (src/server.js line 31): Math.max(0.2 * transport, 10). -/
def transportStd (transport : ℚ) : ℚ := max (0.2 * transport) 10

/-- Trial count (src/server.js line 33): const sims = 500. -/
def sims : ℕ := 500

/-- One loop iteration of src/server.js lines 36-46, as a function of the trial index i
and the deviate stream z. -/
def trialTotal (inp : EstimateInput) (z : ℕ → ℚ) (i : ℕ) : ℚ :=
  let r := max 0 (randn_bm_draw inp.rent (rentStd inp.rent) (z (3 * i)))
  let f := max 0 (randn_bm_draw inp.food (foodStd inp.food) (z (3 * i + 1)))
  let tr := max 0 (randn_bm_draw inp.transport (transportStd inp.transport) (z (3 * i + 2)))
  let utilities : ℚ := 70
  let misc : ℚ := 100
  let monthlyTotal := r + f + tr + utilities + misc
  let livingTotal := monthlyTotal * inp.months
  let oneTime : ℚ := 200 + 800 + 500
  inp.tuition + livingTotal + oneTime - inp.scholarship

/-- The totals array built by the simulation loop (src/server.js lines 34-46). -/
def totalsList (inp : EstimateInput) (z : ℕ → ℚ) : List ℚ :=
  (List.range sims).map (trialTotal inp z)

/-- totals.sort((a, b) => a - b) (src/server.js line 48): Array.prototype.sort with a
numeric ascending comparator returns the ascending sorted rearrangement of the array;
it is modelled by insertion sort, which produces exactly that sorted permutation. -/
def sortAsc (l : List ℚ) : List ℚ := List.insertionSort (· ≤ ·) l

/-- Math.round x for finite x: the integer nearest to x, rounding half up,
i.e. the floor of x + 0.5. -/
def jsRound (x : ℚ) : ℤ := ⌊x + 1 / 2⌋

/-- totals[Math.floor(p * totals.length)] (src/server.js lines 50-52).  The default 0
is never used at the call sites: the index is in range for the 500-element sample. -/
def percentileAt (s : List ℚ) (p : ℚ) : ℚ := s.getD (⌊p * (s.length : ℚ)⌋).toNat 0

/-- src/server.js lines 48-53: sort ascending, then extract and round the three
nearest-rank percentiles. -/
def summarize (totals : List ℚ) : DistributionSummary :=
  let s := sortAsc totals
  { p10 := jsRound (percentileAt s 0.1)
    median := jsRound (percentileAt s 0.5)
    p90 := jsRound (percentileAt s 0.9) }

/-- sampleTotalsFromInputs (src/server.js lines 21-54), parameterised by the stream z
of standard normal deviates produced by its randn_bm calls. -/
def sampleTotalsFromInputs (inp : EstimateInput) (z : ℕ → ℚ) : DistributionSummary :=
  summarize (totalsList inp z)

namespace P000

/-- Rent standard deviation (src/unnamed/part_000 line 37). -/
def rentStd (rent : ℚ) : ℚ := max (0.1 * rent) 50

/-- Food standard deviation (src/unnamed/part_000 line 38). -/
def foodStd (food : ℚ) : ℚ := max (0.15 * food) 20

/-- Transport standard deviation (src/unnamed/part_000 line 39). -/
def transportStd (transport : ℚ) : ℚ := max (0.2 * transport) 10

/-- Trial count (src/unnamed/part_000 line 41). -/
def sims : ℕ := 500

/-- One loop iteration of src/unnamed/part_000 lines 44-54. -/
def trialTotal (inp : EstimateInput) (z : ℕ → ℚ) (i : ℕ) : ℚ :=
  let r := max 0 (randn_bm_draw inp.rent (rentStd inp.rent) (z (3 * i)))
  let f := max 0 (randn_bm_draw inp.food (foodStd inp.food) (z (3 * i + 1)))
  let tr := max 0 (randn_bm_draw inp.transport (transportStd inp.transport) (z (3 * i + 2)))
  let utilities : ℚ := 70
  let misc : ℚ := 100
  let monthlyTotal := r + f + tr + utilities + misc
  let livingTotal := monthlyTotal * inp.months
  let oneTime : ℚ := 200 + 800 + 500
  inp.tuition + livingTotal + oneTime - inp.scholarship

/-- The totals array of src/unnamed/part_000 lines 42-54. -/
def totalsList (inp : EstimateInput) (z : ℕ → ℚ) : List ℚ :=
  (List.range sims).map (trialTotal inp z)

/-- src/unnamed/part_000 lines 56-61: sort ascending, extract and round percentiles. -/
def summarize (totals : List ℚ) : DistributionSummary :=
  let s := sortAsc totals
  { p10 := jsRound (percentileAt s 0.1)
    median := jsRound (percentileAt s 0.5)
    p90 := jsRound (percentileAt s 0.9) }

/-- sampleTotalsFromInputs (src/unnamed/part_000 lines 22-62). -/
def sampleTotalsFromInputs (inp : EstimateInput) (z : ℕ → ℚ) : DistributionSummary :=
  summarize (totalsList inp z)

end P000

/-- The formula of section 4.3 of the spec, written from its words: the trial total is
tuition + (clamped rent draw + clamped food draw + clamped transport draw + 70 + 100)
* months + 1500 - scholarship. -/
def specTrialTotal (inp : EstimateInput) (rentDraw foodDraw transportDraw : ℚ) : ℚ :=
  inp.tuition +
    (max 0 rentDraw + max 0 foodDraw + max 0 transportDraw + 70 + 100) * inp.months +
    1500 - inp.scholarship

/-- A request body whose tuition field coerces to the finite number -5 and whose other
fields are missing or non-numeric. -/
def bodyNegTuition : RequestBody :=
  ⟨.finite (-5), .nan, .nan, .nan, .nan, .nan⟩

/-- A request body whose months field coerces to the finite number -3. -/
def bodyNegMonths : RequestBody :=
  ⟨.nan, .finite (-3), .nan, .nan, .nan, .nan⟩

/-- A request body with every field missing or non-numeric. -/
def bodyAllNan : RequestBody :=
  ⟨.nan, .nan, .nan, .nan, .nan, .nan⟩

/-- A request body supplying months = 5 only. -/
def bodyMonthsFive : RequestBody :=
  ⟨.nan, .finite 5, .nan, .nan, .nan, .nan⟩

/-- The all-zero estimator input. -/
def zeroInput : EstimateInput := ⟨0, 0, 0, 0, 0, 0⟩

/-- The all-zero deviate stream (every normal draw lands exactly on its mean). -/
def zeroDev : ℕ → ℚ := fun _ => 0

theorem length_sortAsc (l : List ℚ) : (sortAsc l).length = l.length :=
  List.length_insertionSort _ l

theorem sorted_sortAsc (l : List ℚ) : (sortAsc l).Sorted (· ≤ ·) :=
  List.sorted_insertionSort _ l

theorem perm_sortAsc (l : List ℚ) : (sortAsc l).Perm l :=
  List.perm_insertionSort _ l

theorem length_totalsList (inp : EstimateInput) (z : ℕ → ℚ) :
    (totalsList inp z).length = 500 := by
  simp [totalsList, sims]

theorem jsRound_mono {x y : ℚ} (h : x ≤ y) : jsRound x ≤ jsRound y :=
  Int.floor_mono (by linarith)

theorem jsOr_nan (d : JSNumber) : jsOr JSNumber.nan d = d := rfl

theorem jsOr_ne_nan (x d : JSNumber) (hd : d ≠ JSNumber.nan) : jsOr x d ≠ JSNumber.nan := by
  unfold jsOr
  cases x with
  | nan => simpa [JSNumber.truthy] using hd
  | posInf => simp [JSNumber.truthy]
  | negInf => simp [JSNumber.truthy]
  | finite q =>
    by_cases hq : q = 0 <;> simp [JSNumber.truthy, hq, hd]

/-- C7: the per-category standard deviations are exactly max(0.10 rent, 50),
max(0.15 food, 20) and max(0.20 transport, 10), and each is strictly positive
for every input, including inputs with a zero (or even negative) point estimate. -/
theorem category_standard_deviations (inp : EstimateInput) :
    rentStd inp.rent = max (0.1 * inp.rent) 50 ∧
    foodStd inp.food = max (0.15 * inp.food) 20 ∧
    transportStd inp.transport = max (0.2 * inp.transport) 10 ∧
    0 < rentStd inp.rent ∧ 0 < foodStd inp.food ∧ 0 < transportStd inp.transport := by
  refine ⟨rfl, rfl, rfl, ?_, ?_, ?_⟩ <;>
    exact lt_max_of_lt_right (by norm_num)

/-- C2 counterexample: the request body whose tuition field is the number -5 is coerced
to -5 itself, a negative value, so the estimator does operate on a negative input;
the claimed non-negativity of every coerced field is false. -/
theorem coercion_negative_counterexample :
    (coerceInputs bodyNegTuition).tuition = JSNumber.finite (-5) ∧
    ¬ nonnegFinite (coerceInputs bodyNegTuition).tuition := by
  have h : (coerceInputs bodyNegTuition).tuition = JSNumber.finite (-5) := by
    show jsOr (JSNumber.finite (-5)) (JSNumber.finite 0) = JSNumber.finite (-5)
    simp [jsOr, JSNumber.truthy]
  refine ⟨h, ?_⟩
  rw [h]
  show ¬ (0 ≤ (-5 : ℚ))
  norm_num

/-- C2 amended: each coerced numeric field is never NaN, and any non-numeric or missing
value (coercing to NaN) becomes 0 (months becomes 12); however negative finite values
and infinities pass through the || coercion unchanged, so the coerced value is not
necessarily a non-negative finite number. -/
theorem coercion_amended (b : RequestBody) :
    ((coerceInputs b).tuition ≠ JSNumber.nan ∧
      (coerceInputs b).months ≠ JSNumber.nan ∧
      (coerceInputs b).rent ≠ JSNumber.nan ∧
      (coerceInputs b).food ≠ JSNumber.nan ∧
      (coerceInputs b).transport ≠ JSNumber.nan ∧
      (coerceInputs b).scholarship ≠ JSNumber.nan) ∧
    (b.tuition = JSNumber.nan → (coerceInputs b).tuition = JSNumber.finite 0) ∧
    (b.months = JSNumber.nan → (coerceInputs b).months = JSNumber.finite 12) ∧
    (b.rent = JSNumber.nan → (coerceInputs b).rent = JSNumber.finite 0) ∧
    (b.food = JSNumber.nan → (coerceInputs b).food = JSNumber.finite 0) ∧
    (b.transport = JSNumber.nan → (coerceInputs b).transport = JSNumber.finite 0) ∧
    (b.scholarship = JSNumber.nan → (coerceInputs b).scholarship = JSNumber.finite 0) := by
  refine ⟨⟨?_, ?_, ?_, ?_, ?_, ?_⟩, ?_, ?_, ?_, ?_, ?_, ?_⟩
  · exact jsOr_ne_nan b.tuition _ (by simp)
  · exact jsOr_ne_nan b.months _ (by simp)
  · exact jsOr_ne_nan b.rent _ (by simp)
  · exact jsOr_ne_nan b.food _ (by simp)
  · exact jsOr_ne_nan b.transport _ (by simp)
  · exact jsOr_ne_nan b.scholarship _ (by simp)
  · intro h; show jsOr b.tuition _ = _; rw [h, jsOr_nan]
  · intro h; show jsOr b.months _ = _; rw [h, jsOr_nan]
  · intro h; show jsOr b.rent _ = _; rw [h, jsOr_nan]
  · intro h; show jsOr b.food _ = _; rw [h, jsOr_nan]
  · intro h; show jsOr b.transport _ = _; rw [h, jsOr_nan]
  · intro h; show jsOr b.scholarship _ = _; rw [h, jsOr_nan]

/-- C2 amended witness: the amended coercion theorem at the all-missing request body. -/
theorem coercion_amended_witness :
    (((coerceInputs bodyAllNan).tuition ≠ JSNumber.nan ∧
      (coerceInputs bodyAllNan).months ≠ JSNumber.nan ∧
      (coerceInputs bodyAllNan).rent ≠ JSNumber.nan ∧
      (coerceInputs bodyAllNan).food ≠ JSNumber.nan ∧
      (coerceInputs bodyAllNan).transport ≠ JSNumber.nan ∧
      (coerceInputs bodyAllNan).scholarship ≠ JSNumber.nan) ∧
    (bodyAllNan.tuition = JSNumber.nan → (coerceInputs bodyAllNan).tuition = JSNumber.finite 0) ∧
    (bodyAllNan.months = JSNumber.nan → (coerceInputs bodyAllNan).months = JSNumber.finite 12) ∧
    (bodyAllNan.rent = JSNumber.nan → (coerceInputs bodyAllNan).rent = JSNumber.finite 0) ∧
    (bodyAllNan.food = JSNumber.nan → (coerceInputs bodyAllNan).food = JSNumber.finite 0) ∧
    (bodyAllNan.transport = JSNumber.nan →
      (coerceInputs bodyAllNan).transport = JSNumber.finite 0) ∧
    (bodyAllNan.scholarship = JSNumber.nan →
      (coerceInputs bodyAllNan).scholarship = JSNumber.finite 0)) :=
  coercion_amended bodyAllNan

/-- C3 counterexample: for the supplied months value -3 (a non-positive number), the
handler does not default to 12: the estimator receives -3 itself. -/
theorem months_negative_counterexample :
    bodyNegMonths.months = JSNumber.finite (-3) ∧ (-3 : ℚ) ≤ 0 ∧
    (coerceInputs bodyNegMonths).months = JSNumber.finite (-3) ∧
    (coerceInputs bodyNegMonths).months ≠ JSNumber.finite 12 := by
  have h : (coerceInputs bodyNegMonths).months = JSNumber.finite (-3) := by
    show jsOr (JSNumber.finite (-3)) (JSNumber.finite 12) = JSNumber.finite (-3)
    simp [jsOr, JSNumber.truthy]
  refine ⟨rfl, by norm_num, h, ?_⟩
  rw [h]
  simp only [ne_eq, JSNumber.finite.injEq]
  norm_num

/-- C3 amended: the months value used by the estimator is 12 whenever the supplied
months field is unspecified, non-numeric (NaN), or exactly zero; any other supplied
value, including negative numbers and the infinities, passes through unchanged. -/
theorem months_default_amended (b : RequestBody) :
    (b.months = JSNumber.nan → (coerceInputs b).months = JSNumber.finite 12) ∧
    (b.months = JSNumber.finite 0 → (coerceInputs b).months = JSNumber.finite 12) ∧
    (∀ q : ℚ, q ≠ 0 → b.months = JSNumber.finite q →
      (coerceInputs b).months = JSNumber.finite q) ∧
    (b.months = JSNumber.posInf → (coerceInputs b).months = JSNumber.posInf) ∧
    (b.months = JSNumber.negInf → (coerceInputs b).months = JSNumber.negInf) := by
  refine ⟨?_, ?_, ?_, ?_, ?_⟩
  · intro h; show jsOr b.months _ = _; rw [h, jsOr_nan]
  · intro h; show jsOr b.months _ = _; rw [h]; simp [jsOr, JSNumber.truthy]
  · intro q hq h; show jsOr b.months _ = _; rw [h]; simp [jsOr, JSNumber.truthy, hq]
  · intro h; show jsOr b.months _ = _; rw [h]; simp [jsOr, JSNumber.truthy]
  · intro h; show jsOr b.months _ = _; rw [h]; simp [jsOr, JSNumber.truthy]

/-- C3 amended witness: the amended months theorem at a body supplying months = 5. -/
theorem months_default_amended_witness :
    ((bodyMonthsFive.months = JSNumber.nan →
      (coerceInputs bodyMonthsFive).months = JSNumber.finite 12) ∧
    (bodyMonthsFive.months = JSNumber.finite 0 →
      (coerceInputs bodyMonthsFive).months = JSNumber.finite 12) ∧
    (∀ q : ℚ, q ≠ 0 → bodyMonthsFive.months = JSNumber.finite q →
      (coerceInputs bodyMonthsFive).months = JSNumber.finite q) ∧
    (bodyMonthsFive.months = JSNumber.posInf →
      (coerceInputs bodyMonthsFive).months = JSNumber.posInf) ∧
    (bodyMonthsFive.months = JSNumber.negInf →
      (coerceInputs bodyMonthsFive).months = JSNumber.negInf)) :=
  months_default_amended bodyMonthsFive

/-- C10: the two copies of sampleTotalsFromInputs, in src/server.js and in
src/unnamed/part_000, are extensionally equal: on every input record and every
stream of deviates produced by the shared random source they return identical
p10, median and p90. -/
theorem sampleTotals_copies_equal (inp : EstimateInput) (z : ℕ → ℚ) :
    sampleTotalsFromInputs inp z = P000.sampleTotalsFromInputs inp z := rfl

theorem floor_toNat_eval {x : ℚ} {n : ℕ} (h : x = (n : ℚ)) : (⌊x⌋).toNat = n := by
  rw [h, Int.floor_natCast, Int.toNat_natCast]

theorem percentileAt_eval (s : List ℚ) (h : s.length = 500) :
    percentileAt s 0.1 = s.getD 50 0 ∧
    percentileAt s 0.5 = s.getD 250 0 ∧
    percentileAt s 0.9 = s.getD 450 0 := by
  have i1 : (⌊(0.1 : ℚ) * ((500 : ℕ) : ℚ)⌋).toNat = 50 := floor_toNat_eval (by norm_num)
  have i2 : (⌊(0.5 : ℚ) * ((500 : ℕ) : ℚ)⌋).toNat = 250 := floor_toNat_eval (by norm_num)
  have i3 : (⌊(0.9 : ℚ) * ((500 : ℕ) : ℚ)⌋).toNat = 450 := floor_toNat_eval (by norm_num)
  unfold percentileAt
  rw [h, i1, i2, i3]
  exact ⟨rfl, rfl, rfl⟩

theorem summarize_eq (l : List ℚ) (h : l.length = 500) :
    summarize l =
      { p10 := jsRound ((sortAsc l).getD 50 0)
        median := jsRound ((sortAsc l).getD 250 0)
        p90 := jsRound ((sortAsc l).getD 450 0) } := by
  have hs : (sortAsc l).length = 500 := by rw [length_sortAsc, h]
  obtain ⟨h1, h2, h3⟩ := percentileAt_eval (sortAsc l) hs
  simp only [summarize]
  rw [h1, h2, h3]

/-- C1: for every input record and every stream of deviates, the returned summary
satisfies p10 ≤ median ≤ p90: the three values are the rounded order statistics at
the increasing indices 50, 250, 450 of the same ascending-sorted 500-trial sample. -/
theorem estimator_percentiles_ordered (inp : EstimateInput) (z : ℕ → ℚ) :
    (sampleTotalsFromInputs inp z).p10 ≤ (sampleTotalsFromInputs inp z).median ∧
    (sampleTotalsFromInputs inp z).median ≤ (sampleTotalsFromInputs inp z).p90 := by
  have hlen := length_totalsList inp z
  have hsum := summarize_eq (totalsList inp z) hlen
  unfold sampleTotalsFromInputs
  rw [hsum]
  set s := sortAsc (totalsList inp z) with hsdef
  have hs : s.length = 500 := by rw [hsdef, length_sortAsc, hlen]
  have hsort : s.Sorted (· ≤ ·) := sorted_sortAsc _
  have h50 : (50 : ℕ) < s.length := by rw [hs]; norm_num
  have h250 : (250 : ℕ) < s.length := by rw [hs]; norm_num
  have h450 : (450 : ℕ) < s.length := by rw [hs]; norm_num
  have e50 : s.getD 50 0 = s.get ⟨50, h50⟩ := by
    rw [List.getD_eq_getElem s 0 h50, List.get_eq_getElem]
  have e250 : s.getD 250 0 = s.get ⟨250, h250⟩ := by
    rw [List.getD_eq_getElem s 0 h250, List.get_eq_getElem]
  have e450 : s.getD 450 0 = s.get ⟨450, h450⟩ := by
    rw [List.getD_eq_getElem s 0 h450, List.get_eq_getElem]
  constructor
  · show jsRound (s.getD 50 0) ≤ jsRound (s.getD 250 0)
    rw [e50, e250]
    exact jsRound_mono (hsort.rel_get_of_le (by rw [Fin.mk_le_mk]; norm_num))
  · show jsRound (s.getD 250 0) ≤ jsRound (s.getD 450 0)
    rw [e250, e450]
    exact jsRound_mono (hsort.rel_get_of_le (by rw [Fin.mk_le_mk]; norm_num))

/-- C5: on a 500-element sample, the percentile extractor sorts ascending (the sorted
list is an ordered permutation of the input) and returns the elements at the
nearest-rank indices floor(0.10 N) = 50, floor(0.50 N) = 250 and floor(0.90 N) = 450,
each rounded to the nearest integer, as p10, median and p90 — no interpolation or
averaging of adjacent ranks. -/
theorem percentile_extractor_nearest_rank (l : List ℚ) (h : l.length = 500) :
    (sortAsc l).Sorted (· ≤ ·) ∧ (sortAsc l).Perm l ∧
    (⌊(0.1 : ℚ) * (l.length : ℚ)⌋).toNat = 50 ∧
    (⌊(0.5 : ℚ) * (l.length : ℚ)⌋).toNat = 250 ∧
    (⌊(0.9 : ℚ) * (l.length : ℚ)⌋).toNat = 450 ∧
    summarize l =
      { p10 := jsRound ((sortAsc l).getD 50 0)
        median := jsRound ((sortAsc l).getD 250 0)
        p90 := jsRound ((sortAsc l).getD 450 0) } := by
  refine ⟨sorted_sortAsc l, perm_sortAsc l, ?_, ?_, ?_, summarize_eq l h⟩ <;>
    · rw [h]; exact floor_toNat_eval (by norm_num)

/-- C5 witness: the nearest-rank extraction theorem at a concrete 500-element sample. -/
theorem percentile_extractor_nearest_rank_witness :
    ((sortAsc (List.replicate 500 (0 : ℚ))).Sorted (· ≤ ·) ∧
    (sortAsc (List.replicate 500 (0 : ℚ))).Perm (List.replicate 500 (0 : ℚ)) ∧
    (⌊(0.1 : ℚ) * ((List.replicate 500 (0 : ℚ)).length : ℚ)⌋).toNat = 50 ∧
    (⌊(0.5 : ℚ) * ((List.replicate 500 (0 : ℚ)).length : ℚ)⌋).toNat = 250 ∧
    (⌊(0.9 : ℚ) * ((List.replicate 500 (0 : ℚ)).length : ℚ)⌋).toNat = 450 ∧
    summarize (List.replicate 500 (0 : ℚ)) =
      { p10 := jsRound ((sortAsc (List.replicate 500 (0 : ℚ))).getD 50 0)
        median := jsRound ((sortAsc (List.replicate 500 (0 : ℚ))).getD 250 0)
        p90 := jsRound ((sortAsc (List.replicate 500 (0 : ℚ))).getD 450 0) }) :=
  percentile_extractor_nearest_rank (List.replicate 500 0) (by rw [List.length_replicate])

/-- C4: each of the 500 trial totals equals the spec formula
tuition + (max(0, rentDraw) + max(0, foodDraw) + max(0, transportDraw) + 70 + 100)
* months + 1500 - scholarship, where each draw is one normal variate for its category
built from the category standard deviation (draw = deviate * std + mean); tuition and
scholarship appear only deterministically, outside every draw. -/
theorem trial_total_formula (inp : EstimateInput) (z : ℕ → ℚ) (i : ℕ) (hi : i < sims) :
    (totalsList inp z).getD i 0 =
      specTrialTotal inp
        (randn_bm_draw inp.rent (rentStd inp.rent) (z (3 * i)))
        (randn_bm_draw inp.food (foodStd inp.food) (z (3 * i + 1)))
        (randn_bm_draw inp.transport (transportStd inp.transport) (z (3 * i + 2))) := by
  have hi' : i < (totalsList inp z).length := by
    rw [length_totalsList]; simpa [sims] using hi
  rw [List.getD_eq_getElem _ _ hi']
  simp only [totalsList, List.getElem_map, List.getElem_range]
  simp only [trialTotal, specTrialTotal]
  ring

/-- C4 witness: the trial-total formula at trial 0 of the all-zero input. -/
theorem trial_total_formula_witness :
    (totalsList zeroInput zeroDev).getD 0 0 =
      specTrialTotal zeroInput
        (randn_bm_draw zeroInput.rent (rentStd zeroInput.rent) (zeroDev (3 * 0)))
        (randn_bm_draw zeroInput.food (foodStd zeroInput.food) (zeroDev (3 * 0 + 1)))
        (randn_bm_draw zeroInput.transport (transportStd zeroInput.transport)
          (zeroDev (3 * 0 + 2))) :=
  trial_total_formula zeroInput zeroDev 0 (by norm_num [sims])

/-- C9: when tuition, rent, food, transport and months are non-negative, every trial
total is at least tuition + (70 + 100) * months + 1500 - scholarship, because every
sampled category value is clamped at zero before summation; consequently each
unrounded percentile of the sorted sample respects the same lower bound. -/
theorem trial_totals_lower_bound (inp : EstimateInput) (z : ℕ → ℚ)
    (ht : 0 ≤ inp.tuition) (hr : 0 ≤ inp.rent) (hf : 0 ≤ inp.food)
    (htr : 0 ≤ inp.transport) (hm : 0 ≤ inp.months) :
    (∀ t ∈ totalsList inp z,
      inp.tuition + (70 + 100) * inp.months + 1500 - inp.scholarship ≤ t) ∧
    (∀ p ∈ [(0.1 : ℚ), 0.5, 0.9],
      inp.tuition + (70 + 100) * inp.months + 1500 - inp.scholarship ≤
        percentileAt (sortAsc (totalsList inp z)) p) := by
  have key : ∀ i : ℕ,
      inp.tuition + (70 + 100) * inp.months + 1500 - inp.scholarship ≤ trialTotal inp z i := by
    intro i
    simp only [trialTotal]
    have h1 : (0 : ℚ) ≤ max 0 (randn_bm_draw inp.rent (rentStd inp.rent) (z (3 * i))) :=
      le_max_left _ _
    have h2 : (0 : ℚ) ≤ max 0 (randn_bm_draw inp.food (foodStd inp.food) (z (3 * i + 1))) :=
      le_max_left _ _
    have h3 : (0 : ℚ) ≤ max 0 (randn_bm_draw inp.transport (transportStd inp.transport)
        (z (3 * i + 2))) :=
      le_max_left _ _
    have hmono : (70 + 100 : ℚ) * inp.months ≤
        (max 0 (randn_bm_draw inp.rent (rentStd inp.rent) (z (3 * i))) +
          max 0 (randn_bm_draw inp.food (foodStd inp.food) (z (3 * i + 1))) +
          max 0 (randn_bm_draw inp.transport (transportStd inp.transport) (z (3 * i + 2))) +
          70 + 100) * inp.months :=
      mul_le_mul_of_nonneg_right (by linarith) hm
    linarith
  have hall : ∀ t ∈ totalsList inp z,
      inp.tuition + (70 + 100) * inp.months + 1500 - inp.scholarship ≤ t := by
    intro t htl
    simp only [totalsList, List.mem_map] at htl
    obtain ⟨i, _, rfl⟩ := htl
    exact key i
  refine ⟨hall, ?_⟩
  have hs : (sortAsc (totalsList inp z)).length = 500 := by
    rw [length_sortAsc, length_totalsList]
  obtain ⟨e1, e2, e3⟩ := percentileAt_eval (sortAsc (totalsList inp z)) hs
  intro p hp
  have hmem : ∀ (n : ℕ) (hn : n < (sortAsc (totalsList inp z)).length),
      inp.tuition + (70 + 100) * inp.months + 1500 - inp.scholarship ≤
        (sortAsc (totalsList inp z)).getD n 0 := by
    intro n hn
    rw [List.getD_eq_getElem _ _ hn]
    exact hall _ ((perm_sortAsc (totalsList inp z)).subset (List.getElem_mem hn))
  fin_cases hp
  · rw [e1]; exact hmem 50 (by rw [hs]; norm_num)
  · rw [e2]; exact hmem 250 (by rw [hs]; norm_num)
  · rw [e3]; exact hmem 450 (by rw [hs]; norm_num)

/-- C9 witness: the lower-bound theorem at the all-zero input and the zero stream. -/
theorem trial_totals_lower_bound_witness :
    ((∀ t ∈ totalsList zeroInput zeroDev,
      zeroInput.tuition + (70 + 100) * zeroInput.months + 1500 - zeroInput.scholarship ≤ t) ∧
    (∀ p ∈ [(0.1 : ℚ), 0.5, 0.9],
      zeroInput.tuition + (70 + 100) * zeroInput.months + 1500 - zeroInput.scholarship ≤
        percentileAt (sortAsc (totalsList zeroInput zeroDev)) p)) :=
  trial_totals_lower_bound zeroInput zeroDev (le_refl 0) (le_refl 0) (le_refl 0) (le_refl 0)
    (le_refl 0)

theorem drawNonzero_ne_zero (s : ℕ → ℝ) :
    ∀ (fuel i : ℕ) (u : ℝ) (j : ℕ), drawNonzero s fuel i = some (u, j) → u ≠ 0 := by
  intro fuel
  induction fuel with
  | zero =>
    intro i u j h
    simp only [drawNonzero] at h
    exact Option.noConfusion h
  | succ n ih =>
    intro i u j h
    by_cases hs : s i = 0
    · simp only [drawNonzero, if_pos hs] at h
      exact ih (i + 1) u j h
    · simp only [drawNonzero, if_neg hs, Option.some.injEq, Prod.mk.injEq] at h
      obtain ⟨rfl, rfl⟩ := h
      exact hs

/-- C6: whenever randn_bm returns a sample, that sample equals
sqrt(-2 ln u) * cos(2 pi v) * std + mean for uniform draws u and v that were re-drawn
until neither is exactly 0 (so the logarithm is never applied to 0); and when std = 0
the sample equals mean exactly. -/
theorem randn_bm_formula (s : ℕ → ℝ) (fuel : ℕ) (mean std : ℝ) (i : ℕ) (r : ℝ) (k : ℕ)
    (h : randn_bm s fuel mean std i = some (r, k)) :
    ∃ u v : ℝ, u ≠ 0 ∧ v ≠ 0 ∧
      r = Real.sqrt (-2 * Real.log u) * Real.cos (2 * Real.pi * v) * std + mean ∧
      (std = 0 → r = mean) := by
  unfold randn_bm at h
  cases h1 : drawNonzero s fuel i with
  | none =>
    simp only [h1] at h
    exact Option.noConfusion h
  | some uj =>
    obtain ⟨u, j⟩ := uj
    simp only [h1] at h
    cases h2 : drawNonzero s fuel j with
    | none =>
      simp only [h2] at h
      exact Option.noConfusion h
    | some vk =>
      obtain ⟨v, k2⟩ := vk
      simp only [h2, Option.some.injEq, Prod.mk.injEq] at h
      refine ⟨u, v, drawNonzero_ne_zero s fuel i u j h1, drawNonzero_ne_zero s fuel j v k2 h2,
        ?_, ?_⟩
      · rw [← h.1]; rfl
      · intro h0
        rw [← h.1, randn_bm_core, h0, mul_zero, zero_add]

/-- C6 witness: the formula theorem at the constant stream of draws equal to 1, with
mean 7 and std 0, where randn_bm returns exactly the mean. -/
theorem randn_bm_formula_witness :
    ∃ u v : ℝ, u ≠ 0 ∧ v ≠ 0 ∧
      (7 : ℝ) = Real.sqrt (-2 * Real.log u) * Real.cos (2 * Real.pi * v) * 0 + 7 ∧
      ((0 : ℝ) = 0 → (7 : ℝ) = 7) :=
  randn_bm_formula (fun _ => 1) 1 7 0 0 7 2 (by
    have h1 : drawNonzero (fun _ => (1 : ℝ)) 1 0 = some (1, 1) := by
      simp only [drawNonzero]
      rw [if_neg one_ne_zero]
    have h2 : drawNonzero (fun _ => (1 : ℝ)) 1 1 = some (1, 2) := by
      simp only [drawNonzero]
      rw [if_neg one_ne_zero]
    have h3 : randn_bm_core 7 0 1 1 = 7 := by
      rw [randn_bm_core, mul_zero, zero_add]
    unfold randn_bm
    simp only [h1, h2, h3])

theorem jsRound_add_int (x : ℚ) (d : ℤ) : jsRound (x + d) = jsRound x + d := by
  unfold jsRound
  rw [show x + (d : ℚ) + 1 / 2 = x + 1 / 2 + (d : ℚ) by ring, Int.floor_add_int]

theorem trialTotal_tuition_add (inp : EstimateInput) (z : ℕ → ℚ) (c : ℚ) (i : ℕ) :
    trialTotal { inp with tuition := inp.tuition + c } z i = trialTotal inp z i + c := by
  simp only [trialTotal]
  ring

theorem totalsList_tuition_add (inp : EstimateInput) (z : ℕ → ℚ) (c : ℚ) :
    totalsList { inp with tuition := inp.tuition + c } z =
      (totalsList inp z).map (· + c) := by
  unfold totalsList
  rw [List.map_map]
  exact List.map_congr_left fun i _ => by
    rw [Function.comp_apply, trialTotal_tuition_add]

theorem sortAsc_map_add (l : List ℚ) (c : ℚ) :
    sortAsc (l.map (· + c)) = (sortAsc l).map (· + c) := by
  refine List.eq_of_perm_of_sorted
    ((perm_sortAsc (l.map (· + c))).trans ((perm_sortAsc l).map (· + c)).symm)
    (sorted_sortAsc (l.map (· + c))) ?_
  exact List.Pairwise.map (· + c) (fun a b hab => add_le_add_right hab c) (sorted_sortAsc l)

theorem getD_map_add (l : List ℚ) (c : ℚ) (n : ℕ) (hn : n < l.length) :
    (l.map (· + c)).getD n 0 = l.getD n 0 + c := by
  rw [List.getD_eq_getElem _ _ (by simpa using hn), List.getD_eq_getElem _ _ hn,
    List.getElem_map]

set_option maxRecDepth 8000 in
/-- C8 counterexample: with the fractional increase Δ = 1/2 on tuition of the all-zero
input under the all-zero deviate stream, the returned p10 moves from 1500 to 1501,
which is not exactly 1/2 larger: the outputs are rounded integers, so a non-integer Δ
cannot shift them by exactly Δ. -/
theorem tuition_shift_fractional_counterexample :
    ¬ (((sampleTotalsFromInputs { zeroInput with tuition := zeroInput.tuition + 1 / 2 }
          zeroDev).p10 : ℚ) =
        ((sampleTotalsFromInputs zeroInput zeroDev).p10 : ℚ) + 1 / 2) := by
  have hconst : ∀ (inp : EstimateInput) (c : ℚ), (∀ i : ℕ, trialTotal inp zeroDev i = c) →
      sampleTotalsFromInputs inp zeroDev =
        { p10 := jsRound c, median := jsRound c, p90 := jsRound c } := by
    intro inp c h
    have hrep : totalsList inp zeroDev = List.replicate 500 c := by
      unfold totalsList
      rw [List.map_congr_left fun i _ => h i, List.map_const', List.length_range]
      rfl
    have hsorted : (List.replicate 500 c).Sorted (· ≤ ·) :=
      List.pairwise_replicate.mpr (Or.inr (le_refl c))
    have hsort : sortAsc (List.replicate 500 c) = List.replicate 500 c :=
      hsorted.insertionSort_eq
    have hget : ∀ n : ℕ, n < 500 → (List.replicate 500 c).getD n 0 = c := by
      intro n hn
      rw [List.getD_eq_getElem _ _ (by simpa using hn), List.getElem_replicate]
    unfold sampleTotalsFromInputs
    rw [hrep, summarize_eq _ (by rw [List.length_replicate]), hsort,
      hget 50 (by norm_num), hget 250 (by norm_num), hget 450 (by norm_num)]
  have h1 : sampleTotalsFromInputs zeroInput zeroDev =
      { p10 := 1500, median := 1500, p90 := 1500 } := by
    have h : ∀ i : ℕ, trialTotal zeroInput zeroDev i = 1500 := by
      intro i
      simp only [trialTotal, randn_bm_draw, zeroInput, zeroDev]
      norm_num
    rw [hconst zeroInput 1500 h]
    have hr : jsRound 1500 = 1500 := by
      unfold jsRound
      rw [show (1500 : ℚ) + 1 / 2 = (1500 : ℤ) + (1 : ℚ) / 2 by norm_num]
      rw [Int.floor_eq_iff]
      constructor <;> norm_num
    rw [hr]
  have h2 : sampleTotalsFromInputs { zeroInput with tuition := zeroInput.tuition + 1 / 2 }
      zeroDev = { p10 := 1501, median := 1501, p90 := 1501 } := by
    have h : ∀ i : ℕ,
        trialTotal { zeroInput with tuition := zeroInput.tuition + 1 / 2 } zeroDev i =
          1500 + 1 / 2 := by
      intro i
      simp only [trialTotal, randn_bm_draw, zeroInput, zeroDev]
      norm_num
    rw [hconst _ _ h]
    have hr : jsRound (1500 + 1 / 2) = 1501 := by
      unfold jsRound
      rw [show (1500 : ℚ) + 1 / 2 + 1 / 2 = ((1501 : ℤ) : ℚ) by norm_num, Int.floor_intCast]
    rw [hr]
  rw [h1, h2]
  norm_num

/-- C8 amended: for every input, every integer amount Δ and the same deviate stream,
increasing tuition by Δ shifts p10, median and p90 each up by exactly Δ (for a
non-integer Δ the equality fails, since the three outputs are rounded to integers). -/
theorem tuition_shift_integer (inp : EstimateInput) (z : ℕ → ℚ) (d : ℤ) :
    sampleTotalsFromInputs { inp with tuition := inp.tuition + (d : ℚ) } z =
      { p10 := (sampleTotalsFromInputs inp z).p10 + d
        median := (sampleTotalsFromInputs inp z).median + d
        p90 := (sampleTotalsFromInputs inp z).p90 + d } := by
  have hlen := length_totalsList inp z
  have hlen2 := length_totalsList { inp with tuition := inp.tuition + (d : ℚ) } z
  have h50 : (50 : ℕ) < (sortAsc (totalsList inp z)).length := by
    rw [length_sortAsc, hlen]; norm_num
  have h250 : (250 : ℕ) < (sortAsc (totalsList inp z)).length := by
    rw [length_sortAsc, hlen]; norm_num
  have h450 : (450 : ℕ) < (sortAsc (totalsList inp z)).length := by
    rw [length_sortAsc, hlen]; norm_num
  unfold sampleTotalsFromInputs
  rw [summarize_eq _ hlen, summarize_eq _ hlen2, totalsList_tuition_add, sortAsc_map_add,
    getD_map_add _ _ _ h50, getD_map_add _ _ _ h250, getD_map_add _ _ _ h450,
    jsRound_add_int, jsRound_add_int, jsRound_add_int]
